import Mathlib

/-!
Verification of the background job queue in `container/container.go` of the
flugo framework.  The Go code is shallowly embedded: the mutable `Job` record,
the `QueueStats` counter block and the bounded work channel become explicit
values threaded through pure functions; `time.Now()` is modelled as a strictly
increasing tick counter (each call to `time.Now()` inside `processJob` consumes
one tick); Go's `int`/`int64` become `Int` (no claim comes near overflow).
A handler invocation can succeed, return an error, or panic; an unrecovered
panic propagates out of the invocation (deferred statements still run).
-/

namespace Flugo

/-- Job status constants (Go: `StatusPending` … `StatusRetrying`). -/
inductive JobStatus where
  | pending
  | processing
  | completed
  | failed
  | retrying
deriving DecidableEq, Repr

/-- JSON-compatible payload values (Go: `map[string]interface{}` entries). -/
inductive JsonValue where
  | str : String → JsonValue
  | num : Int → JsonValue
  | boolean : Bool → JsonValue
  | null : JsonValue
  | arr : List JsonValue → JsonValue
  | obj : List (String × JsonValue) → JsonValue

/-- Payload of a job (Go: `map[string]interface{}`), as an association list. -/
abbrev Payload := List (String × JsonValue)

/-- The `Job` struct of `container.go`.  Timestamps are clock ticks. -/
structure Job where
  id : String
  jobType : String
  payload : Payload
  attempts : Int
  maxRetry : Int
  createdAt : Nat
  updatedAt : Nat
  status : JobStatus
  error : String

/-- The `QueueStats` struct: `Processed`, `Failed`, `Retried`, `Active`. -/
structure QueueStats where
  processed : Int
  failed : Int
  retried : Int
  active : Int
deriving DecidableEq, Repr

/-- Outcome of one handler invocation.  Go handlers return `error`; a `nil`
return is `ok`, a non-nil error is `err`.  `panicked` models a Go panic
escaping the handler body. -/
inductive HandlerOutcome where
  | ok
  | err (msg : String)
  | panicked (msg : String)
deriving DecidableEq, Repr

/-- A registered handler (Go: `JobHandler = func(job *Job) error`). -/
abbrev JobHandler := Job → HandlerOutcome

/-- The handler registry (Go: `handlers map[string]JobHandler`). -/
abbrev Registry := String → Option JobHandler

/-- Capacity of the bounded work channel (Go: `make(chan *Job, 1000)`). -/
def queueCapacity : Nat := 1000

/-- Go: `generateJobID` returns `fmt.Sprintf("job_%d", time.Now().UnixNano())`. -/
def generateJobID (nano : Nat) : String := "job_" ++ toString nano

/-- The `Job` literal built by `Queue.Push`: `attempts` is the zero value 0,
`status` is `pending`, both timestamps are the creation instant. -/
def mkJob (jobType : String) (payload : Payload) (maxRetry : Int) (now : Nat) : Job :=
  { id := generateJobID now
    jobType := jobType
    payload := payload
    attempts := 0
    maxRetry := maxRetry
    createdAt := now
    updatedAt := now
    status := .pending
    error := "" }

/-- Result of one `processJob` call.  `slept` records the backoff the worker
slept through (in seconds), `handlerCalls` how many times the handler ran,
`panicOut` a panic that escaped `processJob` (deferred code already ran). -/
structure ProcResult where
  job : Job
  stats : QueueStats
  buffer : List Job
  clock : Nat
  slept : Option Int
  handlerCalls : Nat
  panicOut : Option String

/-- `Queue.processJob`, embedded statement by statement.

Go source order: `stats.Active++`; (deferred `stats.Active--` on every exit);
`job.Status = StatusProcessing`; `job.UpdatedAt = time.Now()`;
`job.Attempts++`; handler lookup; on missing handler mark failed and bump
`Failed`; otherwise run the handler; on error set `job.Error`, and if
`job.Attempts < job.MaxRetry` mark retrying, sleep `Attempts*Attempts`
seconds, then non-blocking resubmit (success bumps `Retried`, a full channel
marks the job failed and bumps `Failed`); with retries exhausted mark failed
and bump `Failed`; on success mark completed, refresh `UpdatedAt`, bump
`Processed`.  There is no `recover`, so a handler panic propagates after the
deferred `Active--` runs. -/
def processJob (reg : Registry) (job0 : Job) (stats0 : QueueStats)
    (buf : List Job) (t : Nat) : ProcResult :=
  let stats1 : QueueStats := { stats0 with active := stats0.active + 1 }
  let j1 : Job := { job0 with
                    status := .processing
                    updatedAt := t
                    attempts := job0.attempts + 1 }
  match reg j1.jobType with
  | none =>
      { job := { j1 with
                 status := .failed
                 error := "no handler registered for job type: " ++ j1.jobType }
        stats := { stats1 with
                   failed := stats1.failed + 1
                   active := stats1.active - 1 }
        buffer := buf
        clock := t + 1
        slept := none
        handlerCalls := 0
        panicOut := none }
  | some h =>
      match h j1 with
      | .panicked msg =>
          { job := j1
            stats := { stats1 with active := stats1.active - 1 }
            buffer := buf
            clock := t + 1
            slept := none
            handlerCalls := 1
            panicOut := some msg }
      | .err msg =>
          let j2 : Job := { j1 with error := msg }
          if j2.attempts < j2.maxRetry then
            let j3 : Job := { j2 with status := .retrying }
            let delay : Int := j3.attempts * j3.attempts
            if buf.length < queueCapacity then
              { job := j3
                stats := { stats1 with
                           retried := stats1.retried + 1
                           active := stats1.active - 1 }
                buffer := buf ++ [j3]
                clock := t + 1
                slept := some delay
                handlerCalls := 1
                panicOut := none }
            else
              { job := { j3 with status := .failed }
                stats := { stats1 with
                           failed := stats1.failed + 1
                           active := stats1.active - 1 }
                buffer := buf
                clock := t + 1
                slept := some delay
                handlerCalls := 1
                panicOut := none }
          else
            { job := { j2 with status := .failed }
              stats := { stats1 with
                         failed := stats1.failed + 1
                         active := stats1.active - 1 }
              buffer := buf
              clock := t + 1
              slept := none
              handlerCalls := 1
              panicOut := none }
      | .ok =>
          { job := { j1 with
                     status := .completed
                     updatedAt := t + 1 }
            stats := { stats1 with
                       processed := stats1.processed + 1
                       active := stats1.active - 1 }
            buffer := buf
            clock := t + 2
            slept := none
            handlerCalls := 1
            panicOut := none }

/-- `Queue.Push`: builds the job, then a non-blocking send on the bounded
channel — it succeeds exactly when the buffer is below capacity, otherwise
returns the error "queue is full" and leaves the buffer untouched. -/
def Push (buf : List Job) (jobType : String) (payload : Payload)
    (maxRetry : Int) (now : Nat) : List Job × Except String Unit :=
  if buf.length < queueCapacity then
    (buf ++ [mkJob jobType payload maxRetry now], .ok ())
  else
    (buf, .error "queue is full")

/-- `Queue.Size`: `len(q.jobs)`, the number of buffered jobs. -/
def Size (buf : List Job) : Nat := buf.length

/-- Fate of the worker goroutine after one `processJob` call: the Go worker
loop has no `recover`, so a panic escaping `processJob` terminates it. -/
inductive WorkerFate where
  | continues
  | dead (msg : String)
deriving DecidableEq, Repr

/-- How `Queue.worker` reacts to the outcome of `processJob`: it loops on a
normal return and is killed by a propagated panic (no `recover` in `worker`). -/
def workerFate (r : ProcResult) : WorkerFate :=
  match r.panicOut with
  | none => .continues
  | some m => .dead m

/-- Empty stats block, the zero value `&QueueStats{}` from `NewQueue`. -/
def stats0 : QueueStats := { processed := 0, failed := 0, retried := 0, active := 0 }

/-- A registry whose handler always returns an error, for failing-job runs. -/
def alwaysErrReg : Registry := fun _ => some (fun _ => .err "boom")

/-- The empty registry: no handler registered for any job type. -/
def emptyReg : Registry := fun _ => none

/-- A registry whose handler panics, for the missing-recover analysis. -/
def panicReg : Registry := fun _ => some (fun _ => .panicked "boom")

/-- A registry whose handler fails on the first `n` invocations (those with
`attempts ≤ n`) and succeeds afterwards. -/
def failThenOkReg (n : Nat) : Registry :=
  fun _ => some (fun j => if j.attempts ≤ (n : Int) then .err "boom" else .ok)

/-- One worker repeatedly dequeuing and processing a single job that retries
through an otherwise empty channel: exactly the execution a lone pushed job
sees.  `fuel` bounds the number of dequeues; the accumulated triple is the
final job, the final stats and the total number of handler invocations. -/
def runLoop (reg : Registry) : Nat → Job → QueueStats → Nat → Nat →
    Job × QueueStats × Nat
  | 0, job, stats, _, calls => (job, stats, calls)
  | fuel + 1, job, stats, t, calls =>
      let r := processJob reg job stats [] t
      match r.buffer with
      | [] => (r.job, r.stats, calls + r.handlerCalls)
      | j :: _ => runLoop reg fuel j r.stats r.clock (calls + r.handlerCalls)

/-- State of the worker pool as observed through the stats lock: one flag per
worker, true while that worker is between the `Active++` at the top of
`processJob` and the deferred `Active--`, together with the `Active` gauge. -/
structure Pool where
  busy : List Bool
  active : Int
deriving DecidableEq, Repr

/-- Number of workers currently inside `processJob`. -/
def countBusy : List Bool → Nat
  | [] => 0
  | true :: l => countBusy l + 1
  | false :: l => countBusy l

/-- The two lock-protected updates of the `Active` gauge: `enter` is the
`stats.Active++` a worker runs on entry to `processJob`, `leave` the deferred
`stats.Active--` that runs on every exit path of `processJob`. -/
inductive PoolStep : Pool → Pool → Prop
  | enter (s : Pool) (i : Nat) (h : s.busy.get? i = some false) :
      PoolStep s { busy := s.busy.set i true, active := s.active + 1 }
  | leave (s : Pool) (i : Nat) (h : s.busy.get? i = some true) :
      PoolStep s { busy := s.busy.set i false, active := s.active - 1 }

/-- Pool states reachable from the start state of `n` idle workers
(`Active` starts at the zero value 0, from `NewQueue`). -/
inductive Reach (n : Nat) : Pool → Prop
  | init : Reach n { busy := List.replicate n false, active := 0 }
  | step {s s' : Pool} : Reach n s → PoolStep s s' → Reach n s'

lemma countBusy_le_length : ∀ l : List Bool, countBusy l ≤ l.length
  | [] => Nat.le_refl 0
  | true :: l => by simpa [countBusy] using countBusy_le_length l
  | false :: l => by
      simp only [countBusy, List.length_cons]
      exact Nat.le_succ_of_le (countBusy_le_length l)

lemma countBusy_replicate_false : ∀ n : Nat, countBusy (List.replicate n false) = 0
  | 0 => rfl
  | n + 1 => by simpa [List.replicate, countBusy] using countBusy_replicate_false n

lemma countBusy_set_true : ∀ (l : List Bool) (i : Nat),
    l.get? i = some false → countBusy (l.set i true) = countBusy l + 1
  | [], i, h => by simp at h
  | b :: l, 0, h => by
      have hb : b = false := by simpa using h
      subst hb
      rfl
  | b :: l, i + 1, h => by
      have ih := countBusy_set_true l i (by simpa using h)
      cases b <;> simp [List.set, countBusy, ih]

lemma countBusy_set_false : ∀ (l : List Bool) (i : Nat),
    l.get? i = some true → countBusy (l.set i false) + 1 = countBusy l
  | [], i, h => by simp at h
  | b :: l, 0, h => by
      have hb : b = true := by simpa using h
      subst hb
      rfl
  | b :: l, i + 1, h => by
      have ih := countBusy_set_false l i (by simpa using h)
      cases b <;> simp [List.set, countBusy, ← ih]

/-- Every reachable pool state keeps its worker count and keeps the `Active`
gauge equal to the number of workers currently inside `processJob`. -/
lemma reach_invariant {n : Nat} {s : Pool} (h : Reach n s) :
    s.busy.length = n ∧ s.active = (countBusy s.busy : Int) := by
  induction h with
  | init => simp [countBusy_replicate_false]
  | step _ hstep ih =>
      obtain ⟨hlen, hact⟩ := ih
      cases hstep with
      | enter i hi =>
          refine ⟨by simpa using hlen, ?_⟩
          simp only [hact, countBusy_set_true _ i hi]
          push_cast
          ring
      | leave i hi =>
          refine ⟨by simpa using hlen, ?_⟩
          have hc := countBusy_set_false _ i hi
          simp only [hact]
          omega

/-- The `Active` gauge is net-unchanged by any single `processJob` call: the
entry increment and the deferred exit decrement cancel on every path,
including a missing handler, both requeue outcomes, success, and a panic
propagating out of the handler. -/
lemma processJob_active (reg : Registry) (job : Job) (stats : QueueStats)
    (buf : List Job) (t : Nat) :
    (processJob reg job stats buf t).stats.active = stats.active := by
  unfold processJob
  cases hr : reg job.jobType with
  | none => simp [hr]
  | some h =>
      cases hh : h { job with status := .processing, updatedAt := t,
                              attempts := job.attempts + 1 } with
      | panicked msg => simp [hr, hh]
      | ok => simp [hr, hh]
      | err msg =>
          by_cases hlt : job.attempts + 1 < job.maxRetry <;>
            by_cases hfull : buf.length < queueCapacity <;>
            simp [hr, hh, hlt, hfull]

/-- One failing pass of the loop while retry budget remains: the job is
requeued with one more attempt, `Retried` grows by one and the worker goes
around again with one unit of fuel less. -/
lemma runLoop_step_err (k : Nat) (job : Job) (stats : QueueStats) (t c : Nat)
    (hlt : job.attempts + 1 < job.maxRetry) :
    runLoop alwaysErrReg (k + 1) job stats t c =
      runLoop alwaysErrReg k
        { job with status := .retrying, updatedAt := t,
                   attempts := job.attempts + 1, error := "boom" }
        { stats with retried := stats.retried + 1 } (t + 1) (c + 1) := by
  simp [runLoop, processJob, alwaysErrReg, queueCapacity, hlt]

/-- The final failing pass of the loop: the retry budget is exhausted, the
job is marked failed and `Failed` grows by one. -/
lemma runLoop_last_err (job : Job) (stats : QueueStats) (t c : Nat)
    (hnlt : ¬ job.attempts + 1 < job.maxRetry) :
    runLoop alwaysErrReg 1 job stats t c =
      ({ job with status := .failed, updatedAt := t,
                  attempts := job.attempts + 1, error := "boom" },
       { stats with failed := stats.failed + 1 }, c + 1) := by
  simp [runLoop, processJob, alwaysErrReg, hnlt]

/-- Run of an always-failing job with `k ≥ 1` attempts of budget left
(`attempts + k = maxRetry`): it ends `failed` with `attempts = maxRetry`,
the handler ran `k` more times, `Retried` grew by `k - 1`, `Failed` by one,
and `Processed` not at all. -/
lemma runLoop_alwaysErr : ∀ (k : Nat) (job : Job) (stats : QueueStats) (t c : Nat),
    1 ≤ k → job.attempts + (k : Int) = job.maxRetry →
    (runLoop alwaysErrReg k job stats t c).1.status = .failed ∧
    (runLoop alwaysErrReg k job stats t c).1.attempts = job.maxRetry ∧
    (runLoop alwaysErrReg k job stats t c).2.1.retried = stats.retried + ((k : Int) - 1) ∧
    (runLoop alwaysErrReg k job stats t c).2.1.failed = stats.failed + 1 ∧
    (runLoop alwaysErrReg k job stats t c).2.1.processed = stats.processed ∧
    (runLoop alwaysErrReg k job stats t c).2.2 = c + k := by
  intro k
  induction k with
  | zero => intro job stats t c hk; exact absurd hk (by decide)
  | succ k ih =>
      intro job stats t c _ hbal
      by_cases hk : k = 0
      · subst hk
        have hnlt : ¬ job.attempts + 1 < job.maxRetry := by
          push_cast at hbal; omega
        rw [runLoop_last_err job stats t c hnlt]
        refine ⟨rfl, ?_, ?_, rfl, rfl, rfl⟩
        · push_cast at hbal ⊢; omega
        · push_cast; omega
      · have hk1 : 1 ≤ k := Nat.one_le_iff_ne_zero.mpr hk
        have hlt : job.attempts + 1 < job.maxRetry := by
          push_cast at hbal; omega
        rw [runLoop_step_err k job stats t c hlt]
        obtain ⟨h1, h2, h3, h4, h5, h6⟩ :=
          ih { job with status := .retrying, updatedAt := t,
                        attempts := job.attempts + 1, error := "boom" }
             { stats with retried := stats.retried + 1 } (t + 1) (c + 1) hk1
             (by simp; push_cast at hbal ⊢; omega)
        refine ⟨h1, ?_, ?_, ?_, ?_, ?_⟩
        · simpa using h2
        · rw [h3]; simp
        · simpa using h4
        · simpa using h5
        · rw [h6]; omega

/-- One failing pass of the loop for the fails-then-succeeds handler. -/
lemma runLoop_step_failThenOk (n k : Nat) (job : Job) (stats : QueueStats) (t c : Nat)
    (hle : job.attempts + 1 ≤ (n : Int)) (hlt : job.attempts + 1 < job.maxRetry) :
    runLoop (failThenOkReg n) (k + 1) job stats t c =
      runLoop (failThenOkReg n) k
        { job with status := .retrying, updatedAt := t,
                   attempts := job.attempts + 1, error := "boom" }
        { stats with retried := stats.retried + 1 } (t + 1) (c + 1) := by
  simp [runLoop, processJob, failThenOkReg, queueCapacity, hle, hlt]

/-- The succeeding pass of the loop for the fails-then-succeeds handler:
once past its failing invocations, the job completes and `Processed` grows. -/
lemma runLoop_done_ok (n : Nat) (job : Job) (stats : QueueStats) (t c : Nat)
    (hgt : ¬ job.attempts + 1 ≤ (n : Int)) :
    runLoop (failThenOkReg n) 1 job stats t c =
      ({ job with status := .completed, updatedAt := t + 1,
                  attempts := job.attempts + 1 },
       { stats with processed := stats.processed + 1 }, c + 1) := by
  simp [runLoop, processJob, failThenOkReg, hgt]

/-- Run of a job whose handler fails exactly while `attempts ≤ n`, with
`k = n - attempts` failing invocations left and retry budget to spare: it
ends `completed`, the handler ran `k + 1` more times, `Retried` grew by `k`,
`Processed` by one and `Failed` not at all. -/
lemma runLoop_failThenOk (n : Nat) : ∀ (k : Nat) (job : Job) (stats : QueueStats) (t c : Nat),
    job.attempts + (k : Int) = (n : Int) → (n : Int) < job.maxRetry →
    (runLoop (failThenOkReg n) (k + 1) job stats t c).1.status = .completed ∧
    (runLoop (failThenOkReg n) (k + 1) job stats t c).2.1.retried = stats.retried + (k : Int) ∧
    (runLoop (failThenOkReg n) (k + 1) job stats t c).2.1.processed = stats.processed + 1 ∧
    (runLoop (failThenOkReg n) (k + 1) job stats t c).2.1.failed = stats.failed ∧
    (runLoop (failThenOkReg n) (k + 1) job stats t c).2.2 = c + (k + 1) := by
  intro k
  induction k with
  | zero =>
      intro job stats t c hbal _
      have hgt : ¬ job.attempts + 1 ≤ (n : Int) := by omega
      rw [runLoop_done_ok n job stats t c hgt]
      exact ⟨rfl, by push_cast; ring, rfl, rfl, rfl⟩
  | succ k ih =>
      intro job stats t c hbal hcap
      have hle : job.attempts + 1 ≤ (n : Int) := by push_cast at hbal; omega
      have hlt : job.attempts + 1 < job.maxRetry := by omega
      rw [runLoop_step_failThenOk n (k + 1) job stats t c hle hlt]
      obtain ⟨h1, h2, h3, h4, h5⟩ :=
        ih { job with status := .retrying, updatedAt := t,
                      attempts := job.attempts + 1, error := "boom" }
           { stats with retried := stats.retried + 1 } (t + 1) (c + 1)
           (by simp; push_cast at hbal ⊢; omega) (by simpa using hcap)
      refine ⟨h1, ?_, ?_, ?_, ?_⟩
      · rw [h2]; simp; omega
      · simpa using h3
      · simpa using h4
      · rw [h5]; omega

/-- Claim C1: a job pushed with `maxRetry = N` (`N ≥ 1`) whose handler errors
on every invocation, with every retry resubmission finding channel space, has
its handler executed exactly `N` times, reaches `attempts = N`, adds exactly
`N - 1` to `Retried` and exactly 1 to `Failed`, leaves `Processed` unchanged,
and ends with status `failed`. -/
theorem alwaysFailing_job_attempted_maxRetry_times
    (N : Nat) (hN : 1 ≤ N) (jt : String) (p : Payload) (n0 : Nat)
    (stats : QueueStats) (t : Nat) :
    (runLoop alwaysErrReg N (mkJob jt p (N : Int) n0) stats t 0).2.2 = N ∧
    (runLoop alwaysErrReg N (mkJob jt p (N : Int) n0) stats t 0).1.attempts = (N : Int) ∧
    (runLoop alwaysErrReg N (mkJob jt p (N : Int) n0) stats t 0).1.status = .failed ∧
    (runLoop alwaysErrReg N (mkJob jt p (N : Int) n0) stats t 0).2.1.retried
      = stats.retried + ((N : Int) - 1) ∧
    (runLoop alwaysErrReg N (mkJob jt p (N : Int) n0) stats t 0).2.1.failed
      = stats.failed + 1 ∧
    (runLoop alwaysErrReg N (mkJob jt p (N : Int) n0) stats t 0).2.1.processed
      = stats.processed := by
  obtain ⟨h1, h2, h3, h4, h5, h6⟩ :=
    runLoop_alwaysErr N (mkJob jt p (N : Int) n0) stats t 0 hN (by simp [mkJob])
  exact ⟨by simpa using h6, by simpa [mkJob] using h2, h1, h3, h4, h5⟩

theorem alwaysFailing_job_attempted_maxRetry_times_witness :
    (runLoop alwaysErrReg 3 (mkJob "email" [] 3 0) stats0 5 0).2.2 = 3 ∧
    (runLoop alwaysErrReg 3 (mkJob "email" [] 3 0) stats0 5 0).1.status = JobStatus.failed ∧
    (runLoop alwaysErrReg 3 (mkJob "email" [] 3 0) stats0 5 0).2.1.retried
      = stats0.retried + 2 := by
  obtain ⟨h1, -, h3, h4, -, -⟩ :=
    alwaysFailing_job_attempted_maxRetry_times 3 (by decide) "email" [] 0 stats0 5
  exact ⟨by simpa using h1, by simpa using h3, by simpa using h4⟩

/-- Claim C2: `Push` is a non-blocking enqueue: below capacity it succeeds
and `Size` grows by one; at capacity it fails immediately with the error
"queue is full", enqueues nothing, and `Size` is unchanged. -/
theorem push_nonblocking_backpressure (buf : List Job) (jt : String)
    (p : Payload) (mr : Int) (now : Nat) :
    (Size buf < queueCapacity →
      (Push buf jt p mr now).2 = Except.ok () ∧
      Size (Push buf jt p mr now).1 = Size buf + 1) ∧
    (Size buf = queueCapacity →
      (Push buf jt p mr now).2 = Except.error "queue is full" ∧
      Size (Push buf jt p mr now).1 = Size buf) := by
  constructor
  · intro h
    simp only [Size] at h
    simp [Push, Size, h]
  · intro h
    have hfull : ¬ buf.length < queueCapacity := by
      simp only [Size] at h; omega
    simp [Push, Size, hfull]

theorem push_nonblocking_backpressure_witness :
    ((Push [] "email" [] 3 0).2 = Except.ok () ∧
      Size (Push [] "email" [] 3 0).1 = Size ([] : List Job) + 1) ∧
    ((Push (List.replicate 1000 (mkJob "email" [] 3 0)) "email" [] 3 0).2
        = Except.error "queue is full" ∧
      Size (Push (List.replicate 1000 (mkJob "email" [] 3 0)) "email" [] 3 0).1
        = Size (List.replicate 1000 (mkJob "email" [] 3 0))) :=
  ⟨(push_nonblocking_backpressure [] "email" [] 3 0).1
      (by simp [Size, queueCapacity]),
   (push_nonblocking_backpressure
      (List.replicate 1000 (mkJob "email" [] 3 0)) "email" [] 3 0).2
      (by simp only [Size, List.length_replicate]; rfl)⟩

/-- Claim C3 (counterexample): dequeuing a job whose type has no registered
handler still increments `attempts` — the unconditional `job.Attempts++`
runs before the handler lookup — refuting the part of the claim saying the
attempts counter is not incremented. -/
theorem noHandler_attempts_incremented :
    (processJob emptyReg (mkJob "email" [] 3 0) stats0 [] 1).job.attempts = 1 ∧
    (mkJob "email" [] 3 0).attempts = 0 ∧
    (processJob emptyReg (mkJob "email" [] 3 0) stats0 [] 1).job.attempts ≠
      (mkJob "email" [] 3 0).attempts := by
  refine ⟨rfl, rfl, by decide⟩

/-- Claim C3 (amended): when no handler is registered for the job's type the
job is immediately marked failed with a descriptive error, `Failed` is
incremented, `Retried` is untouched, the handler never runs, and no backoff
sleep or requeue happens — but `attempts` is still incremented once by the
unconditional increment performed at dequeue. -/
theorem noHandler_immediate_fail (reg : Registry) (job : Job)
    (stats : QueueStats) (buf : List Job) (t : Nat)
    (h : reg job.jobType = none) :
    (processJob reg job stats buf t).job.status = .failed ∧
    (processJob reg job stats buf t).job.error
      = "no handler registered for job type: " ++ job.jobType ∧
    (processJob reg job stats buf t).stats.failed = stats.failed + 1 ∧
    (processJob reg job stats buf t).stats.retried = stats.retried ∧
    (processJob reg job stats buf t).handlerCalls = 0 ∧
    (processJob reg job stats buf t).slept = none ∧
    (processJob reg job stats buf t).buffer = buf ∧
    (processJob reg job stats buf t).job.attempts = job.attempts + 1 := by
  simp [processJob, h]

theorem noHandler_immediate_fail_witness :
    emptyReg (mkJob "email" [] 3 0).jobType = none ∧
    (processJob emptyReg (mkJob "email" [] 3 0) stats0 [] 1).job.status
      = JobStatus.failed ∧
    (processJob emptyReg (mkJob "email" [] 3 0) stats0 [] 1).stats.failed
      = stats0.failed + 1 := by
  refine ⟨rfl, ?_, ?_⟩
  · exact (noHandler_immediate_fail emptyReg (mkJob "email" [] 3 0) stats0 [] 1 rfl).1
  · exact (noHandler_immediate_fail emptyReg (mkJob "email" [] 3 0) stats0 [] 1 rfl).2.2.1

/-- Claim C4: when the handler fails and the attempts counter equals `k`
after the failed execution, with retry budget remaining, the worker sleeps
exactly `k * k` seconds before attempting the resubmission — quadratically
growing delays 1, 4, 9, 16, … across successive retries of the same job. -/
theorem retry_backoff_quadratic (reg : Registry) (h : JobHandler)
    (job : Job) (stats : QueueStats) (buf : List Job) (t : Nat) (msg : String)
    (hreg : reg job.jobType = some h)
    (hfail : h { job with status := .processing, updatedAt := t,
                          attempts := job.attempts + 1 } = .err msg)
    (hlt : job.attempts + 1 < job.maxRetry) :
    (processJob reg job stats buf t).slept
      = some ((job.attempts + 1) * (job.attempts + 1)) := by
  simp [processJob, hreg, hfail, hlt, apply_ite]

theorem retry_backoff_quadratic_witness :
    (processJob alwaysErrReg (mkJob "email" [] 3 0) stats0 [] 1).slept = some 1 := by
  have hw := retry_backoff_quadratic alwaysErrReg (fun _ => .err "boom")
      (mkJob "email" [] 3 0) stats0 [] 1 "boom" rfl rfl (by simp [mkJob])
  simpa [mkJob] using hw

/-- Claim C5: a failing job with retry budget remaining whose resubmission
meets a full channel is marked failed and `Failed` is incremented despite
the remaining budget, `Retried` is not incremented, and the job is not
resubmitted (the channel contents are unchanged). -/
theorem requeue_full_marks_failed (reg : Registry) (h : JobHandler)
    (job : Job) (stats : QueueStats) (buf : List Job) (t : Nat) (msg : String)
    (hreg : reg job.jobType = some h)
    (hfail : h { job with status := .processing, updatedAt := t,
                          attempts := job.attempts + 1 } = .err msg)
    (hlt : job.attempts + 1 < job.maxRetry)
    (hfull : ¬ buf.length < queueCapacity) :
    (processJob reg job stats buf t).job.status = .failed ∧
    (processJob reg job stats buf t).stats.failed = stats.failed + 1 ∧
    (processJob reg job stats buf t).stats.retried = stats.retried ∧
    (processJob reg job stats buf t).buffer = buf := by
  simp [processJob, hreg, hfail, hlt, hfull]

theorem requeue_full_marks_failed_witness :
    (processJob alwaysErrReg (mkJob "email" [] 3 0) stats0
        (List.replicate queueCapacity (mkJob "email" [] 3 0)) 1).job.status
      = JobStatus.failed ∧
    (processJob alwaysErrReg (mkJob "email" [] 3 0) stats0
        (List.replicate queueCapacity (mkJob "email" [] 3 0)) 1).stats.retried
      = stats0.retried := by
  have hw := requeue_full_marks_failed alwaysErrReg (fun _ => .err "boom")
      (mkJob "email" [] 3 0) stats0
      (List.replicate queueCapacity (mkJob "email" [] 3 0)) 1 "boom"
      rfl rfl (by simp [mkJob]) (by simp)
  exact ⟨hw.1, hw.2.2.1⟩

/-- Claim C6 (code bug): neither `worker` nor `processJob` contains a
`recover`, so a panic escaping a handler invocation propagates out of
`processJob` — only the deferred `Active--` runs — and kills the worker
goroutine instead of being converted into a handler-failure outcome: the job
is left in `processing`, nothing is counted as failed, and the worker loop
does not continue. -/
theorem handler_panic_escapes_worker :
    workerFate (processJob panicReg (mkJob "email" [] 3 0) stats0 [] 1)
      = WorkerFate.dead "boom" ∧
    (processJob panicReg (mkJob "email" [] 3 0) stats0 [] 1).job.status
      = JobStatus.processing ∧
    (processJob panicReg (mkJob "email" [] 3 0) stats0 [] 1).stats.failed
      = stats0.failed ∧
    (processJob panicReg (mkJob "email" [] 3 0) stats0 [] 1).stats.active
      = stats0.active := by
  refine ⟨rfl, rfl, rfl, by decide⟩

/-- Claim C7: a job whose handler fails on its first `N` invocations and then
succeeds, pushed with `maxRetry > N` and with every resubmission accepted by
the channel, adds exactly `N` to `Retried` and exactly 1 to `Processed`,
leaves `Failed` unchanged, and ends with status `completed`. -/
theorem failThenSucceed_job_completes (N : Nat) (M : Int) (hM : (N : Int) < M)
    (jt : String) (p : Payload) (n0 : Nat) (stats : QueueStats) (t : Nat) :
    (runLoop (failThenOkReg N) (N + 1) (mkJob jt p M n0) stats t 0).1.status
      = .completed ∧
    (runLoop (failThenOkReg N) (N + 1) (mkJob jt p M n0) stats t 0).2.1.retried
      = stats.retried + (N : Int) ∧
    (runLoop (failThenOkReg N) (N + 1) (mkJob jt p M n0) stats t 0).2.1.processed
      = stats.processed + 1 ∧
    (runLoop (failThenOkReg N) (N + 1) (mkJob jt p M n0) stats t 0).2.1.failed
      = stats.failed ∧
    (runLoop (failThenOkReg N) (N + 1) (mkJob jt p M n0) stats t 0).2.2 = N + 1 := by
  obtain ⟨h1, h2, h3, h4, h5⟩ :=
    runLoop_failThenOk N N (mkJob jt p M n0) stats t 0 (by simp [mkJob])
      (by simpa [mkJob] using hM)
  exact ⟨h1, h2, h3, h4, by simpa using h5⟩

theorem failThenSucceed_job_completes_witness :
    ((1 : Nat) : Int) < 3 ∧
    (runLoop (failThenOkReg 1) 2 (mkJob "email" [] 3 0) stats0 4 0).1.status
      = JobStatus.completed ∧
    (runLoop (failThenOkReg 1) 2 (mkJob "email" [] 3 0) stats0 4 0).2.1.retried
      = stats0.retried + 1 := by
  have hw := failThenSucceed_job_completes 1 3 (by decide) "email" [] 0 stats0 4
  exact ⟨by decide, by simpa using hw.1, by simpa using hw.2.1⟩

/-- Claim C8: the `Active` gauge is incremented on entry to job processing
and decremented on exit on every exit path regardless of outcome — any
single `processJob` call leaves it net-unchanged — and in every reachable
state of a pool of `n` workers `0 ≤ active ≤ n`, with `active = 0` whenever
no worker is currently executing. -/
theorem active_gauge_bounded (n : Nat) (s : Pool) (hs : Reach n s) :
    (0 ≤ s.active ∧ s.active ≤ (n : Int)) ∧
    (countBusy s.busy = 0 → s.active = 0) ∧
    ∀ (reg : Registry) (job : Job) (stats : QueueStats) (buf : List Job) (t : Nat),
      (processJob reg job stats buf t).stats.active = stats.active := by
  obtain ⟨hlen, hact⟩ := reach_invariant hs
  refine ⟨⟨?_, ?_⟩, ?_, ?_⟩
  · rw [hact]; exact_mod_cast Nat.zero_le (countBusy s.busy)
  · rw [hact, ← hlen]; exact_mod_cast countBusy_le_length s.busy
  · intro h0; rw [hact, h0]; rfl
  · intro reg job stats buf t; exact processJob_active reg job stats buf t

theorem active_gauge_bounded_witness :
    (0 ≤ ({ busy := List.replicate 2 false, active := 0 } : Pool).active ∧
      ({ busy := List.replicate 2 false, active := 0 } : Pool).active ≤ ((2 : Nat) : Int)) ∧
    (processJob alwaysErrReg (mkJob "email" [] 3 0) stats0 [] 1).stats.active
      = stats0.active := by
  have hw := active_gauge_bounded 2
      { busy := List.replicate 2 false, active := 0 } Reach.init
  exact ⟨hw.1, hw.2.2 alwaysErrReg (mkJob "email" [] 3 0) stats0 [] 1⟩

/-- Claim C9 (counterexample): with an always-failing handler and
`maxRetry = 1`, started at tick 7, the job transitions to `failed` after the
handler ran, yet its `updatedAt` still holds tick 7 taken at the earlier
transition to `processing` — the next `time.Now()` reading would have been 8
(`clock = 8`) — so the transition to `failed` did not refresh `updatedAt`. -/
theorem failed_transition_stale_updatedAt :
    (processJob alwaysErrReg (mkJob "email" [] 1 0) stats0 [] 7).job.status
      = JobStatus.failed ∧
    (processJob alwaysErrReg (mkJob "email" [] 1 0) stats0 [] 7).job.updatedAt = 7 ∧
    (processJob alwaysErrReg (mkJob "email" [] 1 0) stats0 [] 7).clock = 8 := by
  refine ⟨by decide, by decide, by decide⟩

/-- Claim C9 (amended): `updatedAt` is refreshed at the transition to
`processing` (on dequeue, to the entry tick `t`) and at the transition to
`completed` (to the next tick `t + 1`); the transitions to `failed` and
`retrying` do not refresh it — it keeps the value set when processing
began. -/
theorem updatedAt_refreshed_iff_completed (reg : Registry) (job : Job)
    (stats : QueueStats) (buf : List Job) (t : Nat) :
    (processJob reg job stats buf t).job.updatedAt =
      (if (processJob reg job stats buf t).job.status = JobStatus.completed
        then t + 1 else t) := by
  unfold processJob
  cases hr : reg job.jobType with
  | none => simp [hr]
  | some h =>
      cases hh : h { job with status := .processing, updatedAt := t,
                              attempts := job.attempts + 1 } with
      | panicked msg => simp [hr, hh]
      | ok => simp [hr, hh]
      | err msg =>
          by_cases hlt : job.attempts + 1 < job.maxRetry <;>
            by_cases hfull : buf.length < queueCapacity <;>
            simp [hr, hh, hlt, hfull]

/-- Claim C10: a job pushed with `maxRetry ≤ 1` (including 0 and negative
values) whose handler fails is still executed exactly once: it is dequeued,
`attempts` becomes 1, the retry branch is skipped because `attempts <
maxRetry` fails, the job is marked failed and `Failed` grows by one, while
`Retried`, the channel and the backoff sleep are untouched. -/
theorem lowMaxRetry_single_attempt (reg : Registry) (h : JobHandler)
    (jt : String) (p : Payload) (mr : Int) (n0 : Nat)
    (stats : QueueStats) (buf : List Job) (t : Nat) (msg : String)
    (hmr : mr ≤ 1)
    (hreg : reg jt = some h)
    (hfail : h { id := generateJobID n0, jobType := jt, payload := p,
                 attempts := 1, maxRetry := mr, createdAt := n0,
                 updatedAt := t, status := .processing, error := "" } = .err msg) :
    (processJob reg (mkJob jt p mr n0) stats buf t).handlerCalls = 1 ∧
    (processJob reg (mkJob jt p mr n0) stats buf t).job.attempts = 1 ∧
    (processJob reg (mkJob jt p mr n0) stats buf t).job.status = .failed ∧
    (processJob reg (mkJob jt p mr n0) stats buf t).stats.failed = stats.failed + 1 ∧
    (processJob reg (mkJob jt p mr n0) stats buf t).stats.retried = stats.retried ∧
    (processJob reg (mkJob jt p mr n0) stats buf t).buffer = buf ∧
    (processJob reg (mkJob jt p mr n0) stats buf t).slept = none := by
  have hnlt : ¬ ((1 : Int) < mr) := by omega
  simp [processJob, mkJob, hreg, hfail, hnlt]

theorem lowMaxRetry_single_attempt_witness :
    (0 : Int) ≤ 1 ∧
    (processJob alwaysErrReg (mkJob "email" [] 0 0) stats0 [] 1).job.attempts = 1 ∧
    (processJob alwaysErrReg (mkJob "email" [] 0 0) stats0 [] 1).job.status
      = JobStatus.failed ∧
    (processJob alwaysErrReg (mkJob "email" [] 0 0) stats0 [] 1).stats.failed
      = stats0.failed + 1 := by
  have hw := lowMaxRetry_single_attempt alwaysErrReg (fun _ => .err "boom")
      "email" [] 0 0 stats0 [] 1 "boom" (by decide) rfl rfl
  exact ⟨by decide, hw.2.1, hw.2.2.1, hw.2.2.2.1⟩

end Flugo
